import Mathlib

/-!
Verification development for `scripts/process_player_data.py`, a five-stage
batch pipeline over football datasets (market values, player profiles, team
details, transfer history).  Tables are embedded as lists of records, pandas
operations as list transformations, and Python string operations as explicit
functions on `List Char`.  The `unidecode` transliteration used for player
names is kept abstract as a parameter `uni : String → String`, since no
verified property depends on its behaviour.
-/

namespace Mercato

/-! ### Python string primitives -/

/-- Model of Python `str.lower()`: character-wise lowercasing. -/
def pyLower (s : String) : String := String.mk (s.toList.map Char.toLower)

/-- Drop leading whitespace of a character list (left part of `str.strip()`). -/
def stripL (l : List Char) : List Char := l.dropWhile Char.isWhitespace

/-- Drop trailing whitespace of a character list (right part of `str.strip()`). -/
def stripR (l : List Char) : List Char := (l.reverse.dropWhile Char.isWhitespace).reverse

/-- Model of Python `str.strip()`: remove leading and trailing whitespace. -/
def pyStrip (s : String) : String := String.mk (stripR (stripL s.toList))

/-- Model of Python `needle in hay`: substring occurrence. -/
def strContains (hay needle : String) : Bool :=
  hay.toList.tails.any (fun t => needle.toList.isPrefixOf t)

/-- Model of Python `s.endswith(suffix)`. -/
def strEndsWith (s suffix : String) : Bool := List.isSuffixOf suffix.toList s.toList

/-! ### Data model (§3 of the design): one structure per table row. -/

/-- Row of `player_market_value.csv`: `player_id`, numeric `value`, and a
date-like ordering field (opaque here, never consumed by the pipeline). -/
structure MVRecord where
  player_id : Nat
  value : Int
  record_date : Nat
deriving DecidableEq

/-- Row of `player_profiles.csv`; free-text fields are nullable (`Option`). -/
structure PlayerProfile where
  player_id : Nat
  player_name : Option String
  place_of_birth : Option String
  current_club_name : Option String
deriving DecidableEq

/-- Derived CuratedPlayer row: a profile plus the attached `market_value`. -/
structure CuratedPlayer where
  profile : PlayerProfile
  market_value : Int
deriving DecidableEq

/-- Row of `transfer_history.csv`. -/
structure TransferRecord where
  player_id : Nat
  player_name : Option String
  from_team_id : Nat
  from_team_name : Option String
  to_team_id : Nat
  to_team_name : Option String
deriving DecidableEq

/-- Row of `team_details.csv` (possibly several rows per `club_id`). -/
structure TeamDetail where
  club_id : Nat
  country_name : String
deriving DecidableEq

/-- Derived EnrichedTransfer row: transfer plus the two country columns. -/
structure EnrichedTransfer where
  transfer : TransferRecord
  from_team_country : String
  to_team_country : String
deriving DecidableEq

/-! ### Helper functions of the script -/

/-- `normalize_player_name`: `NaN` passes through, otherwise transliterate. -/
def normalizePlayerName (uni : String → String) (name : Option String) : Option String :=
  name.map uni

/-- European country list of `is_european_country` (source lines 99-108). -/
def europeanCountries : List String :=
  ["albania", "andorra", "armenia", "austria", "azerbaijan", "belarus", "belgium",
   "bosnia", "bulgaria", "croatia", "cyprus", "czech", "denmark", "estonia",
   "finland", "france", "georgia", "germany", "greece", "hungary", "iceland",
   "ireland", "italy", "kazakhstan", "kosovo", "latvia", "liechtenstein", "lithuania",
   "luxembourg", "malta", "moldova", "monaco", "montenegro", "netherlands", "norway",
   "poland", "portugal", "romania", "russia", "san marino", "serbia", "slovakia",
   "slovenia", "spain", "sweden", "switzerland", "turkey", "ukraine", "united kingdom",
   "england", "scotland", "wales", "northern ireland", "vatican"]

/-- `is_european_country`: `NaN` place of birth counts as non-European, otherwise
case-insensitive substring search for any European country name. -/
def isEuropeanCountry (place_of_birth : Option String) : Bool :=
  match place_of_birth with
  | none => false
  | some s => europeanCountries.any (fun c => strContains (pyLower s) c)

/-- `get_prestigious_teams`: canonical prestigious club names. -/
def prestigiousTeams : List String :=
  ["Arsenal", "AC Milan", "Real Madrid", "FC Barcelona", "Barcelona", "Chelsea", "Chelsea FC"]

/-- `normalize_team_name`: `NaN` becomes the empty string, otherwise strip. -/
def normalizeTeamName (team_name : Option String) : String :=
  match team_name with
  | none => ""
  | some s => pyStrip s

/-- `matches_prestigious_team` (source lines 380-414): falsy (empty) input never
matches; otherwise compare the lowercased re-stripped name against the
canonical list, then the per-club branches with exclusion substrings. -/
def matchesPrestigiousTeam (team_name : String) : Bool :=
  if team_name == "" then false
  else
    let team_lower := pyLower (pyStrip team_name)
    if (prestigiousTeams.map pyLower).contains team_lower then true
    else if team_lower == "arsenal" &&
        !(["sarandí", "kyiv", "u18", "u19", "u21", "youth", "b"].any
            (fun x => strContains team_lower x)) then true
    else if team_lower == "barcelona" &&
        !([" sc", " b", " c", "u18", "u19", "youth"].any
            (fun x => strContains team_lower x)) then true
    else if team_lower == "ac milan" &&
        !(["youth", "u17", "u19", "b"].any
            (fun x => strContains team_lower x)) then true
    else if team_lower == "real madrid" &&
        !([" b", " c", "u19", "youth"].any
            (fun x => strContains team_lower x)) then true
    else if (team_lower == "chelsea" || team_lower == "chelsea fc") &&
        !(["u18", "u19", "u21", "youth", "b"].any
            (fun x => strContains team_lower x)) then true
    else false

/-! ### Stage 1: Value Sorter (`sort_market_values`) -/

/-- `sort_market_values`: order the market-value table by `value`, descending. -/
def sortMarketValues (records : List MVRecord) : List MVRecord :=
  records.mergeSort (fun a b => decide (b.value ≤ a.value))

/-! ### Per-player maximum (`groupby('player_id')['value'].max()`) -/

/-- Values of a given player inside a slice of the market-value table. -/
def sliceValues (rows : List MVRecord) (pid : Nat) : List Int :=
  (rows.filter (fun r => r.player_id == pid)).map (fun r => r.value)

/-- Per-player maximum of `value` over a slice: `groupby('player_id').max()`,
`none` when the player has no row in the slice. -/
def playerMax (rows : List MVRecord) (pid : Nat) : Option Int :=
  (sliceValues rows pid).max?

/-! ### Stage 2: Top-Player Selector (`extract_top_players`) -/

/-- `extract_top_players`: head 30,000 of the sorted values, per-player max,
join onto profiles, normalize names, sort by `market_value` descending, apply
the disjunctive retention filter, then the hard 19M floor. -/
def extractTopPlayers (uni : String → String) (sortedMV : List MVRecord)
    (profiles : List PlayerProfile) : List CuratedPlayer :=
  let top := sortedMV.take 30000
  let joined := (profiles.filter (fun p => (playerMax top p.player_id).isSome)).map
    (fun p =>
      { profile := { p with player_name := normalizePlayerName uni p.player_name },
        market_value := (playerMax top p.player_id).getD 0 })
  let sorted := joined.mergeSort (fun a b => decide (b.market_value ≤ a.market_value))
  let afterRetention := sorted.filter (fun r =>
    decide (r.market_value > 20000000) ||
    r.profile.current_club_name == some "Retired" ||
    isEuropeanCountry r.profile.place_of_birth)
  afterRetention.filter (fun r => decide (r.market_value ≥ 19000000))

/-! ### Stage 3: Transfer Filter (`filter_transfer_history`) -/

/-- Player ids of a curated-player table. -/
def curatedIds (players : List CuratedPlayer) : List Nat :=
  players.map (fun r => r.profile.player_id)

/-- Name normalization applied to a retained transfer row. -/
def normalizeTransferRow (uni : String → String) (t : TransferRecord) : TransferRecord :=
  { t with player_name := normalizePlayerName uni t.player_name }

/-- `filter_transfer_history`: keep rows whose `player_id` is among the curated
players, normalizing `player_name` in the retained rows. -/
def filterTransferHistory (uni : String → String) (transfers : List TransferRecord)
    (topPlayers : List CuratedPlayer) : List TransferRecord :=
  (transfers.filter (fun t => (curatedIds topPlayers).contains t.player_id)).map
    (normalizeTransferRow uni)

/-! ### Stage 4: Country Enricher (`add_country_columns`) -/

/-- Youth suffix list of `add_country_columns` (source lines 271-274). -/
def youthSuffixes : List String :=
  ["YTH", "Youth", "You", "U19", "U17", "Yth",
   "U20", "U21", "U18", "U16", "U23", "U22", "U24", "II", "Yth.", "B"]

/-- `is_youth_team`: `NaN` is not a youth team; otherwise the stripped name is
tested with `endswith` against every youth suffix. -/
def isYouthTeam (team_name : Option String) : Bool :=
  match team_name with
  | none => false
  | some s => youthSuffixes.any (fun suffix => strEndsWith (pyStrip s) suffix)

/-- The club id → country map: `drop_duplicates('club_id')` keeps the first
row per club, so lookup is first match; missing ids resolve to `""`. -/
def teamCountry (teams : List TeamDetail) (cid : Nat) : String :=
  match teams.find? (fun t => t.club_id == cid) with
  | some t => t.country_name
  | none => ""

/-- `add_country_columns`: drop transfers whose destination is a youth team,
then attach `from_team_country` / `to_team_country` from the club map. -/
def addCountryColumns (teams : List TeamDetail) (transfers : List TransferRecord) :
    List EnrichedTransfer :=
  (transfers.filter (fun t => !isYouthTeam t.to_team_name)).map
    (fun t =>
      { transfer := t,
        from_team_country := teamCountry teams t.from_team_id,
        to_team_country := teamCountry teams t.to_team_id })

/-! ### Stage 5: Prestige Merger (`find_and_merge_prestigious_players`) -/

/-- The value band of the merger: `10,000,000 ≤ v < 19,000,000`. -/
def inPrestigeBand (v : Int) : Bool :=
  decide (10000000 ≤ v) && decide (v < 19000000)

/-- A player is in the band when the maximum over the whole raw market-value
table lies in `[10M, 19M)`. -/
def bandPlayer (mv : List MVRecord) (pid : Nat) : Bool :=
  match playerMax mv pid with
  | some v => inPrestigeBand v
  | none => false

/-- Transfer rows of band players (`transfers_df[...isin(prestigious_player_ids)]`). -/
def bandTransfers (mv : List MVRecord) (transfers : List TransferRecord) :
    List TransferRecord :=
  transfers.filter (fun t => bandPlayer mv t.player_id)

/-- Either endpoint of a transfer row matches a prestigious club
(`from_prestigious | to_prestigious`). -/
def transferTouchesPrestigious (t : TransferRecord) : Bool :=
  matchesPrestigiousTeam (normalizeTeamName t.from_team_name) ||
  matchesPrestigiousTeam (normalizeTeamName t.to_team_name)

/-- A player played for a prestigious club: some of their band transfer rows
touches a prestigious club. -/
def playedForPrestigious (mv : List MVRecord) (transfers : List TransferRecord)
    (pid : Nat) : Bool :=
  (bandTransfers mv transfers).any
    (fun t => t.player_id == pid && transferTouchesPrestigious t)

/-- Profiles of qualifying players with the full-table maximum attached as
`market_value` and names normalized. -/
def prestigiousPlayers (uni : String → String) (mv : List MVRecord)
    (profiles : List PlayerProfile) (transfers : List TransferRecord) :
    List CuratedPlayer :=
  (profiles.filter (fun p => playedForPrestigious mv transfers p.player_id)).map
    (fun p =>
      { profile := { p with player_name := normalizePlayerName uni p.player_name },
        market_value := (playerMax mv p.player_id).getD 0 })

/-- Final re-sort of the curated table by `market_value`, descending. -/
def sortByMarketValueDesc (players : List CuratedPlayer) : List CuratedPlayer :=
  players.mergeSort (fun a b => decide (b.market_value ≤ a.market_value))

/-- `find_and_merge_prestigious_players`: append the qualifying players whose
`player_id` is not already present in the main file (never overwriting existing
rows), or start from scratch when the main file is absent; then re-sort. -/
def findAndMergePrestigiousPlayers (uni : String → String) (mv : List MVRecord)
    (profiles : List PlayerProfile) (transfers : List TransferRecord)
    (mainPlayers : Option (List CuratedPlayer)) : List CuratedPlayer :=
  let pres := prestigiousPlayers uni mv profiles transfers
  let merged :=
    match mainPlayers with
    | none => pres
    | some mp => mp ++ pres.filter (fun r => !((curatedIds mp).contains r.profile.player_id))
  sortByMarketValueDesc merged

/-! ### Spec-side definition for the prestigious-club matching (refinement) -/

/-- Per-club exclusion-substring table, as the spec describes the heuristic:
club key (lowercase) paired with the substrings that veto a match. -/
def clubExclusions : List (String × List String) :=
  [("arsenal", ["sarandí", "kyiv", "u18", "u19", "u21", "youth", "b"]),
   ("barcelona", [" sc", " b", " c", "u18", "u19", "youth"]),
   ("ac milan", ["youth", "u17", "u19", "b"]),
   ("real madrid", [" b", " c", "u19", "youth"]),
   ("chelsea", ["u18", "u19", "u21", "youth", "b"]),
   ("chelsea fc", ["u18", "u19", "u21", "youth", "b"])]

/-- Spec-side matching predicate, following the spec text: the trimmed name
(null treated as empty) matches iff its lowercase form equals one of the seven
canonical names, or a per-club exact lowercase equality holds and none of that
club's exclusion substrings occurs in the lowercased name. -/
def specTeamMatches (team_name : Option String) : Bool :=
  let lower := pyLower (normalizeTeamName team_name)
  (prestigiousTeams.map pyLower).contains lower ||
  clubExclusions.any (fun ce =>
    lower == ce.fst && !(ce.snd.any (fun x => strContains lower x)))

/-! ### Whole pipeline and entry point (`main`) -/

/-- The five stages chained as `main` chains them: stage 5 reads the artifact
written by stage 2. -/
def runPipeline (uni : String → String) (mv : List MVRecord)
    (profiles : List PlayerProfile) (teams : List TeamDetail)
    (transfers : List TransferRecord) :
    List CuratedPlayer × List EnrichedTransfer :=
  let sortedMV := sortMarketValues mv
  let topPlayers := extractTopPlayers uni sortedMV profiles
  let filtered := filterTransferHistory uni transfers topPlayers
  let enriched := addCountryColumns teams filtered
  let finalPlayers := findAndMergePrestigiousPlayers uni mv profiles transfers (some topPlayers)
  (finalPlayers, enriched)

/-- Input validation of `main`: the first missing path, if any, with the
diagnostic message the script prints before `sys.exit(1)`. -/
def validateInputFiles (fileExists : String → Bool) (paths : List String) :
    Option String :=
  (paths.find? (fun p => !(fileExists p))).map
    (fun p => "Error: File not found: " ++ p)

/-- `main`: validate the four input paths before any processing; on a missing
file exit with code 1, a diagnostic, and no outputs; otherwise run the pipeline
and exit 0.  The result is (exit code, diagnostic, outputs). -/
def runMain (fileExists : String → Bool)
    (mvPath profilesPath teamsPath transfersPath : String)
    (uni : String → String) (mv : List MVRecord) (profiles : List PlayerProfile)
    (teams : List TeamDetail) (transfers : List TransferRecord) :
    Nat × Option String × Option (List CuratedPlayer × List EnrichedTransfer) :=
  match validateInputFiles fileExists [mvPath, profilesPath, teamsPath, transfersPath] with
  | some msg => (1, some msg, none)
  | none => (0, none, some (runPipeline uni mv profiles teams transfers))

/-! ### Helper lemmas -/

lemma dropWhile_idem {α : Type} (p : α → Bool) (l : List α) :
    (l.dropWhile p).dropWhile p = l.dropWhile p := by
  induction l with
  | nil => simp
  | cons a l ih =>
    by_cases h : p a
    · simp [List.dropWhile_cons, h, ih]
    · simp [List.dropWhile_cons, h]

lemma dropWhile_eq_self_of_prefix {α : Type} {p : α → Bool} {l l' : List α}
    (hl : l.dropWhile p = l) (hp : l' <+: l) : l'.dropWhile p = l' := by
  cases l' with
  | nil => simp
  | cons a t =>
    obtain ⟨s, hs⟩ := hp
    have hpa : p a = false := by
      by_contra hpa
      rw [Bool.not_eq_false] at hpa
      rw [← hs, List.cons_append, List.dropWhile_cons_of_pos hpa] at hl
      have hlen := congrArg List.length hl
      have hle : ((t ++ s).dropWhile p).length ≤ (t ++ s).length :=
        (List.dropWhile_sublist p).length_le
      simp at hlen hle
      omega
    simp [List.dropWhile_cons, hpa]

lemma stripL_idem (l : List Char) : stripL (stripL l) = stripL l :=
  dropWhile_idem _ _

lemma stripR_idem (l : List Char) : stripR (stripR l) = stripR l := by
  simp [stripR, List.reverse_reverse, dropWhile_idem]

lemma stripR_isPrefixOfSelf (l : List Char) : stripR l <+: l := by
  rw [← List.reverse_suffix]
  simpa [stripR] using List.dropWhile_suffix (l := l.reverse) Char.isWhitespace

lemma pyStrip_idem (s : String) : pyStrip (pyStrip s) = pyStrip s := by
  unfold pyStrip
  have htl : ∀ l : List Char, (String.mk l).toList = l := fun _ => rfl
  rw [htl]
  congr 1
  have h1 : stripL (stripR (stripL s.toList)) = stripR (stripL s.toList) :=
    dropWhile_eq_self_of_prefix (stripL_idem s.toList) (stripR_isPrefixOfSelf (stripL s.toList))
  rw [h1, stripR_idem]

lemma sortPerm {α : Type} (key : α → Int) (l : List α) :
    (l.mergeSort (fun a b => decide (key b ≤ key a))).Perm l :=
  List.mergeSort_perm l _

lemma sortPairwise {α : Type} (key : α → Int) (l : List α) :
    (l.mergeSort (fun a b => decide (key b ≤ key a))).Pairwise
      (fun a b => key b ≤ key a) := by
  have h : (l.mergeSort (fun a b => decide (key b ≤ key a))).Pairwise
      (fun a b => decide (key b ≤ key a) = true) :=
    List.sorted_mergeSort
      (by intro a b c h1 h2; simp at h1 h2 ⊢; omega)
      (by intro a b; simp [Bool.or_eq_true, decide_eq_true_eq]; exact le_total _ _) l
  exact h.imp (by simp)

lemma sortOfSorted {α : Type} (key : α → Int) {l : List α}
    (h : l.Pairwise (fun a b => key b ≤ key a)) :
    l.mergeSort (fun a b => decide (key b ≤ key a)) = l :=
  List.mergeSort_of_sorted (h.imp (by simp))

lemma playerMax_eq_some_iff {rows : List MVRecord} {pid : Nat} {v : Int} :
    playerMax rows pid = some v ↔
      v ∈ sliceValues rows pid ∧ ∀ w ∈ sliceValues rows pid, w ≤ v := by
  haveI : Std.Antisymm ((· : Int) ≤ ·) := ⟨fun h h' => le_antisymm h h'⟩
  exact List.max?_eq_some_iff (fun a => le_refl a) (fun a b => max_choice a b)
    (fun a b c => max_le_iff)

lemma mem_extractTopPlayers {uni : String → String} {sortedMV : List MVRecord}
    {profiles : List PlayerProfile} {r : CuratedPlayer}
    (hr : r ∈ extractTopPlayers uni sortedMV profiles) :
    (∃ p ∈ profiles, (playerMax (sortedMV.take 30000) p.player_id).isSome = true ∧
       r = ⟨{ p with player_name := normalizePlayerName uni p.player_name },
            (playerMax (sortedMV.take 30000) p.player_id).getD 0⟩) ∧
    (r.market_value > 20000000 ∨ r.profile.current_club_name = some "Retired" ∨
      isEuropeanCountry r.profile.place_of_birth = true) ∧
    r.market_value ≥ 19000000 := by
  simp only [extractTopPlayers, List.mem_filter, List.mem_mergeSort, List.mem_map,
    Bool.or_eq_true, decide_eq_true_eq, beq_iff_eq] at hr
  obtain ⟨⟨⟨p, hp, hmk⟩, hret⟩, hfloor⟩ := hr
  refine ⟨⟨p, hp.1, hp.2, hmk.symm⟩, ?_, hfloor⟩
  tauto

lemma mem_prestigiousPlayers {uni : String → String} {mv : List MVRecord}
    {profiles : List PlayerProfile} {transfers : List TransferRecord} {r : CuratedPlayer}
    (hr : r ∈ prestigiousPlayers uni mv profiles transfers) :
    ∃ p ∈ profiles, playedForPrestigious mv transfers p.player_id = true ∧
      r = ⟨{ p with player_name := normalizePlayerName uni p.player_name },
           (playerMax mv p.player_id).getD 0⟩ := by
  simp only [prestigiousPlayers, List.mem_map, List.mem_filter] at hr
  obtain ⟨p, ⟨hp, hq⟩, hmk⟩ := hr
  exact ⟨p, hp, hq, hmk.symm⟩

lemma playedForPrestigious_band {mv : List MVRecord} {transfers : List TransferRecord}
    {pid : Nat} (h : playedForPrestigious mv transfers pid = true) :
    bandPlayer mv pid = true := by
  simp only [playedForPrestigious, bandTransfers, List.any_eq_true, List.mem_filter,
    Bool.and_eq_true, beq_iff_eq] at h
  obtain ⟨t, ⟨_, hband⟩, hpid, -⟩ := h
  rwa [← hpid]

lemma bandPlayer_eq_true_iff {mv : List MVRecord} {pid : Nat} :
    bandPlayer mv pid = true ↔
      ∃ v, playerMax mv pid = some v ∧ 10000000 ≤ v ∧ v < 19000000 := by
  unfold bandPlayer inPrestigeBand
  cases h : playerMax mv pid <;> simp

lemma prestigiousPlayers_value_band {uni : String → String} {mv : List MVRecord}
    {profiles : List PlayerProfile} {transfers : List TransferRecord} {r : CuratedPlayer}
    (hr : r ∈ prestigiousPlayers uni mv profiles transfers) :
    playerMax mv r.profile.player_id = some r.market_value ∧
    10000000 ≤ r.market_value ∧ r.market_value < 19000000 := by
  obtain ⟨p, _, hq, hmk⟩ := mem_prestigiousPlayers hr
  have hband := (bandPlayer_eq_true_iff).mp (playedForPrestigious_band hq)
  obtain ⟨v, hv, h1, h2⟩ := hband
  subst hmk
  simpa [hv] using ⟨h1, h2⟩

lemma mem_findAndMerge {uni : String → String} {mv : List MVRecord}
    {profiles : List PlayerProfile} {transfers : List TransferRecord}
    {mp : List CuratedPlayer} {r : CuratedPlayer}
    (hr : r ∈ findAndMergePrestigiousPlayers uni mv profiles transfers (some mp)) :
    r ∈ mp ∨ r ∈ prestigiousPlayers uni mv profiles transfers := by
  simp only [findAndMergePrestigiousPlayers, sortByMarketValueDesc, List.mem_mergeSort,
    List.mem_append, List.mem_filter] at hr
  rcases hr with h | ⟨h, -⟩
  · exact Or.inl h
  · exact Or.inr h

/-! ### Concrete example tables for witnesses and counterexamples -/

/-- Concrete transliteration instance: the identity map. -/
def exUni : String → String := fun s => s

/-- High-value player: European birthplace, market value above every threshold. -/
def pHigh : PlayerProfile :=
  { player_id := 1, player_name := some "Ana", place_of_birth := some "Paris, France",
    current_club_name := some "Paris Club" }

/-- Band player: non-European birthplace, not retired, mid market value. -/
def pBand : PlayerProfile :=
  { player_id := 2, player_name := some "Taro", place_of_birth := some "Tokyo, Japan",
    current_club_name := some "Gamba Osaka" }

/-- Market-value history: player 1 peaks at 25M, player 2 at 15M. -/
def exMV : List MVRecord := [⟨1, 25000000, 3⟩, ⟨2, 15000000, 5⟩]

def exProfiles : List PlayerProfile := [pHigh, pBand]

/-- Player 2 once transferred to Arsenal. -/
def exTransfers : List TransferRecord :=
  [{ player_id := 2, player_name := some "Taro", from_team_id := 10,
     from_team_name := some "Gamba Osaka", to_team_id := 11,
     to_team_name := some "Arsenal" }]

/-- Stage-2 output on the example tables. -/
def exSelector : List CuratedPlayer :=
  extractTopPlayers exUni (sortMarketValues exMV) exProfiles

/-- Final curated table on the example tables, after the Prestige Merger. -/
def exFinal : List CuratedPlayer :=
  findAndMergePrestigiousPlayers exUni exMV exProfiles exTransfers (some exSelector)

/-- Boundary inputs: a single record at exactly the 19M selector floor. -/
def mvFloor : List MVRecord := [⟨1, 19000000, 0⟩]

/-- Boundary inputs: player 2 peaks at exactly 10M (lower band boundary). -/
def mvBand10 : List MVRecord := [⟨2, 10000000, 0⟩]

/-- Boundary inputs: player 2 peaks at exactly 19M (upper band boundary). -/
def mvBand19 : List MVRecord := [⟨2, 19000000, 0⟩]

/-- Transfer kept by the enricher: destination Real Madrid is not a youth team. -/
def tKeep : TransferRecord :=
  { player_id := 2, player_name := some "Taro", from_team_id := 10,
    from_team_name := some "Gamba Osaka", to_team_id := 11,
    to_team_name := some "Real Madrid" }

/-- Transfer with a null destination team name. -/
def tNull : TransferRecord :=
  { player_id := 2, player_name := some "Taro", from_team_id := 10,
    from_team_name := some "Gamba Osaka", to_team_id := 11, to_team_name := none }

/-- Team-details rows: club 10 is mapped, club 11 is not. -/
def exTeams : List TeamDetail := [⟨10, "Japan"⟩]

/-! ### C8: Value Sorter is a value-descending permutation -/

/-- C8: for every input market-value table, the Value Sorter's output is a
permutation of the input rows and `value` is non-increasing across the output
(stated as pairwise, which subsumes consecutive rows). -/
theorem value_sorter_permutation_sorted (mv : List MVRecord) :
    (sortMarketValues mv).Perm mv ∧
    (sortMarketValues mv).Pairwise (fun a b => b.value ≤ a.value) := by
  unfold sortMarketValues
  exact ⟨sortPerm (fun r => r.value) mv, sortPairwise (fun r => r.value) mv⟩

/-! ### C4: threshold boundary behaviour -/

unseal List.merge List.mergeSort in
/-- C4: a Selector-computed market value of exactly 19,000,000 passes the final
floor (inclusive); a full-table maximum of exactly 10,000,000 is inside the
Prestige Merger's band (inclusive); a full-table maximum of exactly 19,000,000
is outside the band (exclusive). -/
theorem value_threshold_boundaries :
    (extractTopPlayers exUni (sortMarketValues mvFloor) [pHigh]).map
        (fun r => r.market_value) = [19000000] ∧
    curatedIds (findAndMergePrestigiousPlayers exUni mvBand10 [pBand] exTransfers
        (some [])) = [2] ∧
    findAndMergePrestigiousPlayers exUni mvBand19 [pBand] exTransfers (some []) = [] := by
  decide

/-! ### C1: selector filters, and the final table after the merger -/

unseal List.merge List.mergeSort in
/-- C1 counterexample: the final curated table, as it stands after the Prestige
Merger has run, does contain a row with `market_value < 19,000,000` (the band
player merged through the Arsenal transfer), so the claim as stated is false. -/
theorem final_table_contains_below_floor_row :
    ∃ r ∈ exFinal, r.market_value < 19000000 := by
  decide

/-- C1 (amended): every row of the Top-Player Selector's output satisfies the
disjunctive retention predicate and the inclusive 19M floor; in the final table
after the Prestige Merger, every row either satisfies the 19M floor or is a
merger-appended prestigious player whose market value lies in `[10M, 19M)`. -/
theorem selector_filters_enforced_and_merger_band
    (uni : String → String) (mv : List MVRecord) (profiles : List PlayerProfile)
    (transfers : List TransferRecord) (s r : CuratedPlayer)
    (hs : s ∈ extractTopPlayers uni (sortMarketValues mv) profiles)
    (hr : r ∈ findAndMergePrestigiousPlayers uni mv profiles transfers
        (some (extractTopPlayers uni (sortMarketValues mv) profiles))) :
    ((s.market_value > 20000000 ∨ s.profile.current_club_name = some "Retired" ∨
        isEuropeanCountry s.profile.place_of_birth = true) ∧
      s.market_value ≥ 19000000) ∧
    (r.market_value ≥ 19000000 ∨
      (10000000 ≤ r.market_value ∧ r.market_value < 19000000)) := by
  obtain ⟨-, hret, hfloor⟩ := mem_extractTopPlayers hs
  refine ⟨⟨hret, hfloor⟩, ?_⟩
  rcases mem_findAndMerge hr with h | h
  · exact Or.inl (mem_extractTopPlayers h).2.2
  · exact Or.inr (prestigiousPlayers_value_band h).2

unseal List.merge List.mergeSort in
/-- C1 witness: the amended statement instantiated on the example tables, with
the high-value player in the Selector output and the band player merged in. -/
theorem selector_filters_enforced_and_merger_band_witness :
    (⟨pHigh, 25000000⟩ : CuratedPlayer) ∈
        extractTopPlayers exUni (sortMarketValues exMV) exProfiles ∧
    (⟨pBand, 15000000⟩ : CuratedPlayer) ∈
        findAndMergePrestigiousPlayers exUni exMV exProfiles exTransfers
          (some (extractTopPlayers exUni (sortMarketValues exMV) exProfiles)) ∧
    ((((⟨pHigh, 25000000⟩ : CuratedPlayer).market_value > 20000000 ∨
        (⟨pHigh, 25000000⟩ : CuratedPlayer).profile.current_club_name = some "Retired" ∨
        isEuropeanCountry (⟨pHigh, 25000000⟩ : CuratedPlayer).profile.place_of_birth = true) ∧
      (⟨pHigh, 25000000⟩ : CuratedPlayer).market_value ≥ 19000000) ∧
    ((⟨pBand, 15000000⟩ : CuratedPlayer).market_value ≥ 19000000 ∨
      (10000000 ≤ (⟨pBand, 15000000⟩ : CuratedPlayer).market_value ∧
        (⟨pBand, 15000000⟩ : CuratedPlayer).market_value < 19000000))) :=
  ⟨by decide, by decide,
    selector_filters_enforced_and_merger_band exUni exMV exProfiles exTransfers
      ⟨pHigh, 25000000⟩ ⟨pBand, 15000000⟩ (by decide) (by decide)⟩

/-! ### C10: null destination names are retained -/

/-- C10: a transfer row with null `to_team_name` is classified as not a youth
team destination and is retained by the Country Enricher with its country
columns attached like any other row. -/
theorem null_destination_not_youth_retained (teams : List TeamDetail)
    (transfers : List TransferRecord) (t : TransferRecord)
    (ht : t ∈ transfers) (hnull : t.to_team_name = none) :
    isYouthTeam t.to_team_name = false ∧
    ({ transfer := t, from_team_country := teamCountry teams t.from_team_id,
       to_team_country := teamCountry teams t.to_team_id } : EnrichedTransfer) ∈
      addCountryColumns teams transfers := by
  have hy : isYouthTeam t.to_team_name = false := by rw [hnull]; rfl
  refine ⟨hy, ?_⟩
  unfold addCountryColumns
  exact List.mem_map.mpr ⟨t, List.mem_filter.mpr ⟨ht, by rw [hy]; rfl⟩, rfl⟩

/-- C10 witness: instantiated on the concrete null-destination transfer. -/
theorem null_destination_not_youth_retained_witness :
    tNull ∈ [tNull] ∧ tNull.to_team_name = none ∧
    (isYouthTeam tNull.to_team_name = false ∧
      ({ transfer := tNull, from_team_country := teamCountry exTeams tNull.from_team_id,
         to_team_country := teamCountry exTeams tNull.to_team_id } : EnrichedTransfer) ∈
        addCountryColumns exTeams [tNull]) :=
  ⟨by decide, rfl, null_destination_not_youth_retained exTeams [tNull] tNull (by decide) rfl⟩

/-! ### C5: Country Enricher output invariants -/

/-- C5: in the enricher's output no row's destination name (when present) ends,
after stripping, with any youth suffix, and both country columns are total
strings: empty for an unmapped club id, otherwise the country of a
`team_details` row with that club id. -/
theorem enricher_no_youth_destination_countries_total (teams : List TeamDetail)
    (transfers : List TransferRecord) (r : EnrichedTransfer)
    (hr : r ∈ addCountryColumns teams transfers) :
    isYouthTeam r.transfer.to_team_name = false ∧
    (∀ s, r.transfer.to_team_name = some s →
      ∀ suffix ∈ youthSuffixes, strEndsWith (pyStrip s) suffix = false) ∧
    (r.from_team_country = "" ∨ ∃ td ∈ teams,
      td.club_id = r.transfer.from_team_id ∧ r.from_team_country = td.country_name) ∧
    (r.to_team_country = "" ∨ ∃ td ∈ teams,
      td.club_id = r.transfer.to_team_id ∧ r.to_team_country = td.country_name) := by
  simp only [addCountryColumns, List.mem_map, List.mem_filter] at hr
  obtain ⟨t, ⟨ht, hyt⟩, hmk⟩ := hr
  rw [Bool.not_eq_eq_eq_not, Bool.not_true] at hyt
  subst hmk
  refine ⟨hyt, ?_, ?_, ?_⟩
  · intro s hs suffix hsuf
    rw [hs] at hyt
    simp only [isYouthTeam, List.any_eq_false] at hyt
    simpa using hyt suffix hsuf
  · cases hfind : teams.find? (fun td => td.club_id == t.from_team_id) with
    | none => exact Or.inl (by simp [teamCountry, hfind])
    | some td =>
        refine Or.inr ⟨td, List.mem_of_find?_eq_some hfind, ?_, ?_⟩
        · simpa using List.find?_some hfind
        · simp [teamCountry, hfind]
  · cases hfind : teams.find? (fun td => td.club_id == t.to_team_id) with
    | none => exact Or.inl (by simp [teamCountry, hfind])
    | some td =>
        refine Or.inr ⟨td, List.mem_of_find?_eq_some hfind, ?_, ?_⟩
        · simpa using List.find?_some hfind
        · simp [teamCountry, hfind]

/-- C5 witness: the enriched row of the Real Madrid transfer, with club 10
mapped to Japan and club 11 unmapped. -/
theorem enricher_no_youth_destination_countries_total_witness :
    (⟨tKeep, "Japan", ""⟩ : EnrichedTransfer) ∈ addCountryColumns exTeams [tKeep] ∧
    (isYouthTeam (⟨tKeep, "Japan", ""⟩ : EnrichedTransfer).transfer.to_team_name = false ∧
    (∀ s, (⟨tKeep, "Japan", ""⟩ : EnrichedTransfer).transfer.to_team_name = some s →
      ∀ suffix ∈ youthSuffixes, strEndsWith (pyStrip s) suffix = false) ∧
    ((⟨tKeep, "Japan", ""⟩ : EnrichedTransfer).from_team_country = "" ∨ ∃ td ∈ exTeams,
      td.club_id = (⟨tKeep, "Japan", ""⟩ : EnrichedTransfer).transfer.from_team_id ∧
        (⟨tKeep, "Japan", ""⟩ : EnrichedTransfer).from_team_country = td.country_name) ∧
    ((⟨tKeep, "Japan", ""⟩ : EnrichedTransfer).to_team_country = "" ∨ ∃ td ∈ exTeams,
      td.club_id = (⟨tKeep, "Japan", ""⟩ : EnrichedTransfer).transfer.to_team_id ∧
        (⟨tKeep, "Japan", ""⟩ : EnrichedTransfer).to_team_country = td.country_name)) :=
  ⟨by decide,
    enricher_no_youth_destination_countries_total exTeams [tKeep] ⟨tKeep, "Japan", ""⟩
      (by decide)⟩

/-! ### C6: assigned market values are slice maxima -/

/-- C6: the Selector attaches to each output row the maximum `value` of that
player within the first 30,000 rows of the value-sorted table; the Prestige
Merger attaches to each qualifying player the maximum over the entire raw
market-value table.  Both are genuine maxima: attained in the slice and an
upper bound of it. -/
theorem market_value_equals_slice_maximum
    (uni : String → String) (mv : List MVRecord) (profiles : List PlayerProfile)
    (transfers : List TransferRecord) (s r : CuratedPlayer)
    (hs : s ∈ extractTopPlayers uni (sortMarketValues mv) profiles)
    (hr : r ∈ prestigiousPlayers uni mv profiles transfers) :
    (playerMax ((sortMarketValues mv).take 30000) s.profile.player_id =
        some s.market_value ∧
      s.market_value ∈ sliceValues ((sortMarketValues mv).take 30000) s.profile.player_id ∧
      ∀ v ∈ sliceValues ((sortMarketValues mv).take 30000) s.profile.player_id,
        v ≤ s.market_value) ∧
    (playerMax mv r.profile.player_id = some r.market_value ∧
      r.market_value ∈ sliceValues mv r.profile.player_id ∧
      ∀ v ∈ sliceValues mv r.profile.player_id, v ≤ r.market_value) := by
  constructor
  · obtain ⟨⟨p, hp, hsome, hmk⟩, -, -⟩ := mem_extractTopPlayers hs
    obtain ⟨v, hv⟩ := Option.isSome_iff_exists.mp hsome
    have hpid : s.profile.player_id = p.player_id := by rw [hmk]
    have hval : s.market_value = v := by rw [hmk]; simp [hv]
    have hfix : playerMax ((sortMarketValues mv).take 30000) s.profile.player_id =
        some s.market_value := by rw [hpid, hval, hv]
    have hch := playerMax_eq_some_iff.mp hfix
    exact ⟨hfix, hch.1, hch.2⟩
  · have hband := prestigiousPlayers_value_band hr
    have hch := playerMax_eq_some_iff.mp hband.1
    exact ⟨hband.1, hch.1, hch.2⟩

unseal List.merge List.mergeSort in
/-- C6 witness: instantiated on the example tables, where the Selector assigns
25M to player 1 and the merger assigns the full-table maximum 15M to player 2. -/
theorem market_value_equals_slice_maximum_witness :
    (⟨pHigh, 25000000⟩ : CuratedPlayer) ∈
        extractTopPlayers exUni (sortMarketValues exMV) exProfiles ∧
    (⟨pBand, 15000000⟩ : CuratedPlayer) ∈
        prestigiousPlayers exUni exMV exProfiles exTransfers ∧
    ((playerMax ((sortMarketValues exMV).take 30000)
          (⟨pHigh, 25000000⟩ : CuratedPlayer).profile.player_id =
        some (⟨pHigh, 25000000⟩ : CuratedPlayer).market_value ∧
      (⟨pHigh, 25000000⟩ : CuratedPlayer).market_value ∈
        sliceValues ((sortMarketValues exMV).take 30000)
          (⟨pHigh, 25000000⟩ : CuratedPlayer).profile.player_id ∧
      ∀ v ∈ sliceValues ((sortMarketValues exMV).take 30000)
          (⟨pHigh, 25000000⟩ : CuratedPlayer).profile.player_id,
        v ≤ (⟨pHigh, 25000000⟩ : CuratedPlayer).market_value) ∧
    (playerMax exMV (⟨pBand, 15000000⟩ : CuratedPlayer).profile.player_id =
        some (⟨pBand, 15000000⟩ : CuratedPlayer).market_value ∧
      (⟨pBand, 15000000⟩ : CuratedPlayer).market_value ∈
        sliceValues exMV (⟨pBand, 15000000⟩ : CuratedPlayer).profile.player_id ∧
      ∀ v ∈ sliceValues exMV (⟨pBand, 15000000⟩ : CuratedPlayer).profile.player_id,
        v ≤ (⟨pBand, 15000000⟩ : CuratedPlayer).market_value)) :=
  ⟨by decide, by decide,
    market_value_equals_slice_maximum exUni exMV exProfiles exTransfers
      ⟨pHigh, 25000000⟩ ⟨pBand, 15000000⟩ (by decide) (by decide)⟩

/-! ### C7: Transfer Filter id set -/

/-- C7: every raw transfer row of a curated player is retained (with its name
normalized), and the output's player-id set is exactly the curated id set
intersected with the raw transfer table's id set (in particular, a subset of
the curated id set). -/
theorem transfer_filter_id_set_exact
    (uni : String → String) (transfers : List TransferRecord)
    (topPlayers : List CuratedPlayer) (t : TransferRecord)
    (ht : t ∈ transfers) (hpid : t.player_id ∈ curatedIds topPlayers) :
    normalizeTransferRow uni t ∈ filterTransferHistory uni transfers topPlayers ∧
    ∀ q : Nat,
      (∃ u ∈ filterTransferHistory uni transfers topPlayers, u.player_id = q) ↔
      (q ∈ curatedIds topPlayers ∧ ∃ u ∈ transfers, u.player_id = q) := by
  constructor
  · unfold filterTransferHistory
    refine List.mem_map.mpr ⟨t, List.mem_filter.mpr ⟨ht, ?_⟩, rfl⟩
    simpa using hpid
  · intro q
    constructor
    · rintro ⟨u, hu, hq⟩
      simp only [filterTransferHistory, List.mem_map, List.mem_filter] at hu
      obtain ⟨w, ⟨hw, hcont⟩, hwu⟩ := hu
      have hwq : w.player_id = q :=
        (congrArg TransferRecord.player_id hwu).trans hq
      refine ⟨?_, w, hw, hwq⟩
      rw [← hwq]
      simpa using hcont
    · rintro ⟨hq, u, hu, hupid⟩
      refine ⟨normalizeTransferRow uni u, ?_, hupid⟩
      unfold filterTransferHistory
      refine List.mem_map.mpr ⟨u, List.mem_filter.mpr ⟨hu, ?_⟩, rfl⟩
      rw [hupid]
      simpa using hq

/-- C7 witness: instantiated with the Real Madrid transfer of curated player 2. -/
theorem transfer_filter_id_set_exact_witness :
    tKeep ∈ [tKeep] ∧
    tKeep.player_id ∈ curatedIds [⟨pBand, 15000000⟩] ∧
    (normalizeTransferRow exUni tKeep ∈
        filterTransferHistory exUni [tKeep] [⟨pBand, 15000000⟩] ∧
      ∀ q : Nat,
        (∃ u ∈ filterTransferHistory exUni [tKeep] [⟨pBand, 15000000⟩],
            u.player_id = q) ↔
        (q ∈ curatedIds [⟨pBand, 15000000⟩] ∧ ∃ u ∈ [tKeep], u.player_id = q)) :=
  ⟨by decide, by decide,
    transfer_filter_id_set_exact exUni [tKeep] [⟨pBand, 15000000⟩] tKeep
      (by decide) (by decide)⟩

/-! ### C9: input validation of main -/

/-- C9: if any of the four input paths is missing, `main` exits with code 1 and
a diagnostic, producing no outputs; when all four exist (and processing runs to
completion, which the total model always does) it exits 0 with the pipeline's
outputs. -/
theorem main_validates_inputs_before_processing
    (fileExists : String → Bool) (p1 p2 p3 p4 : String) (uni : String → String)
    (mv : List MVRecord) (profiles : List PlayerProfile) (teams : List TeamDetail)
    (transfers : List TransferRecord) :
    ((∃ p ∈ [p1, p2, p3, p4], fileExists p = false) →
      (runMain fileExists p1 p2 p3 p4 uni mv profiles teams transfers).1 = 1 ∧
      (runMain fileExists p1 p2 p3 p4 uni mv profiles teams transfers).2.2 = none ∧
      (runMain fileExists p1 p2 p3 p4 uni mv profiles teams transfers).2.1.isSome = true) ∧
    ((∀ p ∈ [p1, p2, p3, p4], fileExists p = true) →
      runMain fileExists p1 p2 p3 p4 uni mv profiles teams transfers =
        (0, none, some (runPipeline uni mv profiles teams transfers))) := by
  constructor
  · rintro ⟨p, hp, hfe⟩
    cases hfind : [p1, p2, p3, p4].find? (fun x => !(fileExists x)) with
    | none =>
        exfalso
        have := List.find?_eq_none.mp hfind p hp
        simp [hfe] at this
    | some w =>
        simp [runMain, validateInputFiles, hfind]
  · intro hall
    have hfind : [p1, p2, p3, p4].find? (fun x => !(fileExists x)) = none :=
      List.find?_eq_none.mpr (fun x hx => by simp [hall x hx])
    simp [runMain, validateInputFiles, hfind]

/-- C9 witness: a missing first path gives exit code 1 and no outputs; all
paths present gives exit code 0 with the pipeline outputs. -/
theorem main_validates_inputs_before_processing_witness :
    (∃ p ∈ ["a", "b", "c", "d"], (fun q => q == "b" || q == "c" || q == "d") p = false) ∧
    ((runMain (fun q => q == "b" || q == "c" || q == "d") "a" "b" "c" "d"
        exUni [] [] [] []).1 = 1 ∧
      (runMain (fun q => q == "b" || q == "c" || q == "d") "a" "b" "c" "d"
        exUni [] [] [] []).2.2 = none ∧
      (runMain (fun q => q == "b" || q == "c" || q == "d") "a" "b" "c" "d"
        exUni [] [] [] []).2.1.isSome = true) ∧
    (∀ p ∈ ["a", "b", "c", "d"], (fun _ : String => true) p = true) ∧
    runMain (fun _ : String => true) "a" "b" "c" "d" exUni [] [] [] [] =
      (0, none, some (runPipeline exUni [] [] [] [])) :=
  ⟨by decide,
    (main_validates_inputs_before_processing
      (fun q => q == "b" || q == "c" || q == "d") "a" "b" "c" "d"
      exUni [] [] [] []).1 (by decide),
    by decide,
    (main_validates_inputs_before_processing (fun _ : String => true) "a" "b" "c" "d"
      exUni [] [] [] []).2 (by decide)⟩

/-! ### C2: the Prestige Merger is idempotent and never overwrites -/

/-- Unfolding of the merger in the main-file-present case. -/
lemma findAndMerge_some (uni : String → String) (mv : List MVRecord)
    (profiles : List PlayerProfile) (transfers : List TransferRecord)
    (mp : List CuratedPlayer) :
    findAndMergePrestigiousPlayers uni mv profiles transfers (some mp) =
      sortByMarketValueDesc (mp ++
        (prestigiousPlayers uni mv profiles transfers).filter
          (fun r => !((curatedIds mp).contains r.profile.player_id))) := rfl

/-- The final sort of the merger is a permutation. -/
lemma sortByMarketValueDesc_perm (l : List CuratedPlayer) :
    (sortByMarketValueDesc l).Perm l := by
  unfold sortByMarketValueDesc
  exact sortPerm (fun r => r.market_value) l

/-- The final sort of the merger leaves a descending list unchanged. -/
lemma sortByMarketValueDesc_of_sorted {l : List CuratedPlayer}
    (h : l.Pairwise (fun a b => b.market_value ≤ a.market_value)) :
    sortByMarketValueDesc l = l := by
  unfold sortByMarketValueDesc
  exact sortOfSorted (fun r : CuratedPlayer => r.market_value) h

/-- The final sort of the merger produces a descending list. -/
lemma sortByMarketValueDesc_sorted (l : List CuratedPlayer) :
    (sortByMarketValueDesc l).Pairwise (fun a b => b.market_value ≤ a.market_value) := by
  unfold sortByMarketValueDesc
  exact sortPairwise (fun r => r.market_value) l

/-- Ids of the merger's qualifying players form a sublist of the profile ids. -/
lemma curatedIds_prestigious_sublist (uni : String → String) (mv : List MVRecord)
    (profiles : List PlayerProfile) (transfers : List TransferRecord) :
    (curatedIds (prestigiousPlayers uni mv profiles transfers)).Sublist
      (profiles.map PlayerProfile.player_id) := by
  unfold curatedIds prestigiousPlayers
  rw [List.map_map]
  have hfn : ((fun r : CuratedPlayer => r.profile.player_id) ∘
      (fun p : PlayerProfile =>
        ({ profile := { p with player_name := normalizePlayerName uni p.player_name },
           market_value := (playerMax mv p.player_id).getD 0 } : CuratedPlayer))) =
      PlayerProfile.player_id := rfl
  rw [hfn]
  exact (List.filter_sublist _).map _

/-- C2: re-running the Prestige Merger on its own output changes nothing; the
output has no duplicate player ids (given duplicate-free inputs); and every
row already in the main file survives untouched (the merger only appends). -/
theorem merger_idempotent_no_duplicate_no_overwrite
    (uni : String → String) (mv : List MVRecord) (profiles : List PlayerProfile)
    (transfers : List TransferRecord) (mp : List CuratedPlayer)
    (hmp : (curatedIds mp).Nodup)
    (hprof : (profiles.map PlayerProfile.player_id).Nodup) :
    findAndMergePrestigiousPlayers uni mv profiles transfers
        (some (findAndMergePrestigiousPlayers uni mv profiles transfers (some mp))) =
      findAndMergePrestigiousPlayers uni mv profiles transfers (some mp) ∧
    (curatedIds (findAndMergePrestigiousPlayers uni mv profiles transfers
        (some mp))).Nodup ∧
    ∀ r ∈ mp, r ∈ findAndMergePrestigiousPlayers uni mv profiles transfers (some mp) := by
  have hpres := curatedIds_prestigious_sublist uni mv profiles transfers
  rw [findAndMerge_some uni mv profiles transfers mp]
  set pres := prestigiousPlayers uni mv profiles transfers with hpresdef
  set toAdd := pres.filter (fun r => !((curatedIds mp).contains r.profile.player_id))
    with htoAdddef
  set out := sortByMarketValueDesc (mp ++ toAdd) with houtdef
  have hperm : out.Perm (mp ++ toAdd) := sortByMarketValueDesc_perm _
  have hids : (curatedIds out).Perm (curatedIds mp ++ curatedIds toAdd) := by
    have h2 := hperm.map (fun r => r.profile.player_id)
    simpa [curatedIds] using h2
  have htoAdd_sub : (curatedIds toAdd).Sublist (curatedIds pres) := by
    rw [htoAdddef]
    unfold curatedIds
    exact (List.filter_sublist _).map _
  have htoAdd_nodup : (curatedIds toAdd).Nodup :=
    (htoAdd_sub.trans hpres).nodup hprof
  have hdisj : ∀ a ∈ curatedIds mp, a ∉ curatedIds toAdd := by
    intro a hin ha
    simp only [curatedIds, List.mem_map] at ha
    obtain ⟨r, hr, hra⟩ := ha
    rw [htoAdddef] at hr
    have hflt := (List.mem_filter.mp hr).2
    rw [hra] at hflt
    simp [hin] at hflt
  have hnodup : (curatedIds out).Nodup := by
    rw [hids.nodup_iff, List.nodup_append]
    exact ⟨hmp, htoAdd_nodup, hdisj⟩
  have hmemmp : ∀ r ∈ mp, r ∈ out := by
    intro r hr
    rw [hperm.mem_iff, List.mem_append]
    exact Or.inl hr
  refine ⟨?_, hnodup, hmemmp⟩
  rw [findAndMerge_some uni mv profiles transfers out]
  have hempty : pres.filter (fun r => !((curatedIds out).contains r.profile.player_id)) = [] := by
    rw [List.filter_eq_nil_iff]
    intro r hrp
    have hmemid : r.profile.player_id ∈ curatedIds out := by
      rw [hids.mem_iff, List.mem_append]
      by_cases hin : r.profile.player_id ∈ curatedIds mp
      · exact Or.inl hin
      · refine Or.inr ?_
        simp only [curatedIds, List.mem_map]
        refine ⟨r, ?_, rfl⟩
        rw [htoAdddef]
        exact List.mem_filter.mpr ⟨hrp, by simp [hin]⟩
    simp [hmemid]
  rw [← hpresdef, hempty, List.append_nil]
  exact sortByMarketValueDesc_of_sorted (sortByMarketValueDesc_sorted _)

unseal List.merge List.mergeSort in
/-- C2 witness: instantiated on the example tables with the Selector output as
main file. -/
theorem merger_idempotent_no_duplicate_no_overwrite_witness :
    (curatedIds exSelector).Nodup ∧
    (exProfiles.map PlayerProfile.player_id).Nodup ∧
    (findAndMergePrestigiousPlayers exUni exMV exProfiles exTransfers
        (some (findAndMergePrestigiousPlayers exUni exMV exProfiles exTransfers
          (some exSelector))) =
      findAndMergePrestigiousPlayers exUni exMV exProfiles exTransfers
        (some exSelector) ∧
    (curatedIds (findAndMergePrestigiousPlayers exUni exMV exProfiles exTransfers
        (some exSelector))).Nodup ∧
    ∀ r ∈ exSelector,
      r ∈ findAndMergePrestigiousPlayers exUni exMV exProfiles exTransfers
        (some exSelector)) :=
  ⟨by decide, by decide,
    merger_idempotent_no_duplicate_no_overwrite exUni exMV exProfiles exTransfers
      exSelector (by decide) (by decide)⟩

/-! ### C3: prestigious-club matching agrees with the spec's description -/

/-- Boolean shape of the matching code: a guarded if-chain over the canonical
membership test and the five per-club branches equals the disjunction the spec
describes (the Chelsea branch covers two canonical spellings with one
exclusion list). -/
lemma iteChain_eq_orChain (m x1 x2 x3 x4 y1 y2 z1 z2 z3 z4 z5 : Bool) :
    (if m then true
     else if x1 && z1 then true
     else if x2 && z2 then true
     else if x3 && z3 then true
     else if x4 && z4 then true
     else if (y1 || y2) && z5 then true
     else false) =
    (m || (x1 && z1 || (x2 && z2 || (x3 && z3 || (x4 && z4 ||
      (y1 && z5 || (y2 && z5 || false))))))) := by
  revert m x1 x2 x3 x4 y1 y2 z1 z2 z3 z4 z5
  decide

/-- The code's matching test, applied to a normalized endpoint, coincides with
the spec-side predicate on every input. -/
lemma matches_eq_spec (name : Option String) :
    matchesPrestigiousTeam (normalizeTeamName name) = specTeamMatches name := by
  cases name with
  | none => decide
  | some s =>
    have hid : pyStrip (pyStrip s) = pyStrip s := pyStrip_idem s
    by_cases hempty : (pyStrip s == "") = true
    · have hstr : pyStrip s = "" := by simpa using hempty
      simp only [normalizeTeamName, matchesPrestigiousTeam, specTeamMatches, hstr]
      decide
    · simp only [normalizeTeamName, matchesPrestigiousTeam, specTeamMatches]
      rw [if_neg hempty]
      simp only [hid, clubExclusions, List.any_cons, List.any_nil]
      exact iteChain_eq_orChain _ _ _ _ _ _ _ _ _ _ _ _

/-- A band player qualifies exactly when one of their transfer rows has an
endpoint matching a prestigious club. -/
lemma playedForPrestigious_iff (mv : List MVRecord) (transfers : List TransferRecord)
    (pid : Nat) :
    playedForPrestigious mv transfers pid = true ↔
      ∃ t ∈ bandTransfers mv transfers, t.player_id = pid ∧
        (matchesPrestigiousTeam (normalizeTeamName t.from_team_name) = true ∨
         matchesPrestigiousTeam (normalizeTeamName t.to_team_name) = true) := by
  unfold playedForPrestigious transferTouchesPrestigious
  simp [List.any_eq_true, Bool.and_eq_true, Bool.or_eq_true, beq_iff_eq, and_assoc]

/-- C3: a transfer-endpoint name (trimmed, with null never matching) matches a
prestigious club iff its lowercase form equals one of the seven canonical
names, or a per-club exact lowercase equality holds with none of that club's
exclusion substrings occurring; and a player qualifies iff at least one of
their (band) transfer rows has either endpoint matching. -/
theorem prestigious_matching_spec_equivalence (name : Option String)
    (mv : List MVRecord) (transfers : List TransferRecord) (pid : Nat) :
    matchesPrestigiousTeam (normalizeTeamName name) = specTeamMatches name ∧
    (playedForPrestigious mv transfers pid = true ↔
      ∃ t ∈ bandTransfers mv transfers, t.player_id = pid ∧
        (matchesPrestigiousTeam (normalizeTeamName t.from_team_name) = true ∨
         matchesPrestigiousTeam (normalizeTeamName t.to_team_name) = true)) :=
  ⟨matches_eq_spec name, playedForPrestigious_iff mv transfers pid⟩

/-- C3 witness: the equivalence instantiated on a padded club name and on the
example tables' band player. -/
theorem prestigious_matching_spec_equivalence_witness :
    matchesPrestigiousTeam (normalizeTeamName (some " FC Barcelona ")) =
      specTeamMatches (some " FC Barcelona ") ∧
    (playedForPrestigious exMV exTransfers 2 = true ↔
      ∃ t ∈ bandTransfers exMV exTransfers, t.player_id = 2 ∧
        (matchesPrestigiousTeam (normalizeTeamName t.from_team_name) = true ∨
         matchesPrestigiousTeam (normalizeTeamName t.to_team_name) = true)) :=
  prestigious_matching_spec_equivalence (some " FC Barcelona ") exMV exTransfers 2

end Mercato
